import Mathlib

/-!
Shallow embedding of the tsm tmux session manager.

The Go program is embedded as executable Lean definitions: the config
record and its JSON (un)marshalling, the directory lister with its
ignore-suffix filter, the session-identifier sanitizer, and the
session-switch pipeline.  External effects (the filesystem, the fzf
selector, the tmux binary and the environment) are modelled by explicit
state records, and the tmux commands a run issues are collected in a
trace list.
-/

/-- Config mirrors the Go struct Config: the base_dirs and ignore_dirs
fields of the JSON config file.  Go nil slices and empty slices are both
rendered as the empty list. -/
structure Config where
  BaseDirs : List String
  IgnoreDirs : List String
deriving Repr, DecidableEq

/-- Embedding of characterAllowed: a rune is allowed when it lies in
a-z, A-Z, 0-9, or is the dash or the underscore. -/
def characterAllowed (r : Char) : Bool :=
  (decide ('a' ≤ r) && decide (r ≤ 'z')) ||
  (decide ('A' ≤ r) && decide (r ≤ 'Z')) ||
  (decide ('0' ≤ r) && decide (r ≤ '9')) ||
  r == '-' ||
  r == '_'

/-- Embedding of cleanID: every rune of the input that characterAllowed
rejects is replaced by an underscore; the in-place loop over the rune
slice is a map over the character list. -/
def cleanID (id : String) : String :=
  String.mk (id.data.map (fun r => if characterAllowed r then r else '_'))

/-- Embedding of strings.HasSuffix s suffix: the suffix's characters are
a suffix of the characters of s.  A byte-level suffix of valid UTF-8 is a
rune-level suffix, so the character-list model is faithful. -/
def goHasSuffix (s suffix : String) : Bool :=
  List.isSuffixOf suffix.data s.data

/-- Embedding of the anonymous predicate inside removeIgnoredDirs: the
loop over config.IgnoreDirs returning true on the first suffix match. -/
def hasIgnoredSuffix (ignoreDirs : List String) (path : String) : Bool :=
  match ignoreDirs with
  | [] => false
  | d :: rest => if goHasSuffix path d then true else hasIgnoredSuffix rest path

/-- Embedding of removeIgnoredDirs: slices.DeleteFunc removes exactly the
elements on which the predicate holds and keeps the order of the rest,
which is List.filter of the negated predicate. -/
def removeIgnoredDirs (paths : List String) (config : Config) : List String :=
  paths.filter (fun path => !hasIgnoredSuffix config.IgnoreDirs path)

theorem goHasSuffix_iff (s d : String) :
    goHasSuffix s d = true ↔ d.data <:+ s.data := by
  simp [goHasSuffix, List.isSuffixOf_iff_suffix]

theorem hasIgnoredSuffix_iff (dirs : List String) (p : String) :
    hasIgnoredSuffix dirs p = true ↔ ∃ d ∈ dirs, d.data <:+ p.data := by
  induction dirs with
  | nil => simp [hasIgnoredSuffix]
  | cons d rest ih =>
    by_cases h : goHasSuffix p d
    · simp only [hasIgnoredSuffix, h, if_true]
      exact ⟨fun _ => ⟨d, List.mem_cons_self d rest, (goHasSuffix_iff p d).mp h⟩, fun _ => trivial⟩
    · have hd : ¬ d.data <:+ p.data := fun hs => h ((goHasSuffix_iff p d).mpr hs)
      simp [hasIgnoredSuffix, h, ih, hd]

/-- C1: for every configured ignore list and candidate path p in the
input list, p is excluded from removeIgnoredDirs exactly when p ends with
at least one of the configured ignore suffixes, as a plain string suffix
match; a path ending with no configured suffix is retained. -/
theorem removeIgnoredDirs_excluded_iff (config : Config) (paths : List String)
    (p : String) (hp : p ∈ paths) :
    p ∉ removeIgnoredDirs paths config ↔ ∃ d ∈ config.IgnoreDirs, d.data <:+ p.data := by
  rw [← hasIgnoredSuffix_iff config.IgnoreDirs p]
  simp [removeIgnoredDirs, List.mem_filter, hp]

theorem removeIgnoredDirs_excluded_iff_witness :
    ("work/api.git" ∉ removeIgnoredDirs ["work/api.git", "work/tsm"] ⟨[], [".git"]⟩ ↔
      ∃ d ∈ [".git"], d.data <:+ "work/api.git".data) :=
  removeIgnoredDirs_excluded_iff ⟨[], [".git"]⟩ ["work/api.git", "work/tsm"]
    "work/api.git" (by simp)

/-- C2: cleanID keeps every character inside [A-Za-z0-9_-] unchanged,
replaces exactly the characters outside that set by an underscore, never
fails (it is a total function), its output holds only characters of that
set, and identical inputs give identical outputs. -/
theorem cleanID_spec (s : String) :
    (∀ c ∈ (cleanID s).data, characterAllowed c = true) ∧
    (∀ i, (cleanID s).data.get? i =
      (s.data.get? i).map (fun c => if characterAllowed c then c else '_')) ∧
    (∀ t, s = t → cleanID s = cleanID t) := by
  refine ⟨?_, ?_, ?_⟩
  · intro c hc
    simp only [cleanID, List.mem_map] at hc
    obtain ⟨a, _, ha⟩ := hc
    subst ha
    by_cases h : characterAllowed a
    · rw [if_pos h]; exact h
    · rw [if_neg h]; decide
  · intro i
    simp [cleanID, List.get?_map]
  · intro t ht
    rw [ht]

theorem cleanID_spec_witness :
    characterAllowed '_' = true ∧
    (cleanID "my proj!").data.get? 2 = some '_' ∧
    cleanID "a" = cleanID "a" := by
  refine ⟨?_, ?_, ?_⟩
  · exact (cleanID_spec "my proj!").1 '_' (by decide)
  · exact ((cleanID_spec "my proj!").2.1 2).trans (by decide)
  · exact (cleanID_spec "a").2.2 "a" rfl

/-- C8: cleanID is idempotent and preserves the rune count of its input. -/
theorem cleanID_idem_length (s : String) :
    cleanID (cleanID s) = cleanID s ∧ (cleanID s).length = s.length := by
  constructor
  · simp only [cleanID, List.map_map]
    congr 1
    apply List.map_congr_left
    intro c _
    by_cases h : characterAllowed c <;> simp [h, Function.comp]
  · show (s.data.map (fun r => if characterAllowed r then r else '_')).length = s.length
    rw [List.length_map]
    rfl

/-- C9: removeIgnoredDirs returns a subsequence of its input, keeping the
original order without duplicating or inventing paths, and with an empty
ignore list it is the identity. -/
theorem removeIgnoredDirs_sublist_id (paths : List String) (config : Config) :
    List.Sublist (removeIgnoredDirs paths config) paths ∧
    (config.IgnoreDirs = [] → removeIgnoredDirs paths config = paths) := by
  constructor
  · exact List.filter_sublist paths
  · intro h
    unfold removeIgnoredDirs
    rw [h]
    exact List.filter_eq_self.mpr (fun a _ => rfl)

theorem removeIgnoredDirs_sublist_id_witness :
    List.Sublist (removeIgnoredDirs ["x", "y"] ⟨[], []⟩) ["x", "y"] ∧
    removeIgnoredDirs ["x", "y"] ⟨[], []⟩ = ["x", "y"] :=
  ⟨(removeIgnoredDirs_sublist_id ["x", "y"] ⟨[], []⟩).1,
   (removeIgnoredDirs_sublist_id ["x", "y"] ⟨[], []⟩).2 rfl⟩

/-- JSON values, as produced by the encoding/json scanner.  Numbers keep
their literal text; objects keep their key order. -/
inductive Json where
  | null : Json
  | bool : Bool → Json
  | num : String → Json
  | str : String → Json
  | arr : List Json → Json
  | obj : List (String × Json) → Json
deriving Repr, BEq

/-- Whitespace accepted between JSON tokens: space, tab, newline and
carriage return. -/
def skipWs (l : List Char) : List Char :=
  match l with
  | c :: rest => if c = ' ' ∨ c = '\t' ∨ c = '\n' ∨ c = '\r' then skipWs rest else c :: rest
  | [] => []

/-- Value of one hexadecimal digit. -/
def hexDigitVal (c : Char) : Option Nat :=
  if '0' ≤ c ∧ c ≤ '9' then some (c.toNat - '0'.toNat)
  else if 'a' ≤ c ∧ c ≤ 'f' then some (c.toNat - 'a'.toNat + 10)
  else if 'A' ≤ c ∧ c ≤ 'F' then some (c.toNat - 'A'.toNat + 10)
  else none

/-- Value of a four-digit hexadecimal escape. -/
def hex4 (a b c d : Char) : Option Nat :=
  match hexDigitVal a, hexDigitVal b, hexDigitVal c, hexDigitVal d with
  | some x, some y, some z, some w => some (((x * 16 + y) * 16 + z) * 16 + w)
  | _, _, _, _ => none

/-- Body of a JSON string after the opening quote, following the
encoding/json unquote rules: the standard escapes, the u-escape with
UTF-16 surrogate pairing (an unpaired surrogate becomes U+FFFD and the
following characters are reprocessed), and a bare control character is
rejected.  Fuel bounds the recursion; every step consumes at least one
character, so length-plus-one fuel never runs out. -/
def parseStringBody : Nat → List Char → List Char → Option (String × List Char)
  | 0, _, _ => none
  | Nat.succ fuel, acc, l =>
    match l with
    | [] => none
    | '"' :: rest => some (String.mk acc.reverse, rest)
    | '\\' :: esc =>
      match esc with
      | '"' :: rest => parseStringBody fuel ('"' :: acc) rest
      | '\\' :: rest => parseStringBody fuel ('\\' :: acc) rest
      | '/' :: rest => parseStringBody fuel ('/' :: acc) rest
      | 'b' :: rest => parseStringBody fuel (Char.ofNat 8 :: acc) rest
      | 'f' :: rest => parseStringBody fuel (Char.ofNat 12 :: acc) rest
      | 'n' :: rest => parseStringBody fuel ('\n' :: acc) rest
      | 'r' :: rest => parseStringBody fuel ('\r' :: acc) rest
      | 't' :: rest => parseStringBody fuel ('\t' :: acc) rest
      | 'u' :: h1 :: h2 :: h3 :: h4 :: rest =>
        match hex4 h1 h2 h3 h4 with
        | none => none
        | some rr =>
          if 0xD800 ≤ rr ∧ rr < 0xE000 then
            match rest with
            | '\\' :: 'u' :: g1 :: g2 :: g3 :: g4 :: rest2 =>
              match hex4 g1 g2 g3 g4 with
              | some rr1 =>
                if 0xD800 ≤ rr ∧ rr < 0xDC00 ∧ 0xDC00 ≤ rr1 ∧ rr1 < 0xE000 then
                  parseStringBody fuel
                    (Char.ofNat (0x10000 + (rr - 0xD800) * 0x400 + (rr1 - 0xDC00)) :: acc) rest2
                else
                  parseStringBody fuel (Char.ofNat 0xFFFD :: acc)
                    ('\\' :: 'u' :: g1 :: g2 :: g3 :: g4 :: rest2)
              | none => parseStringBody fuel (Char.ofNat 0xFFFD :: acc) rest
            | _ => parseStringBody fuel (Char.ofNat 0xFFFD :: acc) rest
          else
            parseStringBody fuel (Char.ofNat rr :: acc) rest
      | _ => none
    | c :: rest =>
      if c.toNat < 0x20 then none
      else parseStringBody fuel (c :: acc) rest

/-- Longest digit run at the front of the list. -/
def takeDigits (l : List Char) : List Char × List Char :=
  l.span (fun c => c.isDigit)

/-- Optional fraction part of a JSON number. -/
def parseFrac (l : List Char) : Option (List Char × List Char) :=
  match l with
  | '.' :: t =>
    match takeDigits t with
    | ([], _) => none
    | (ds, r) => some ('.' :: ds, r)
  | _ => some ([], l)

/-- Optional exponent part of a JSON number. -/
def parseExp (l : List Char) : Option (List Char × List Char) :=
  match l with
  | e :: t =>
    if e = 'e' ∨ e = 'E' then
      match (match t with
             | '+' :: r => (['+'], r)
             | '-' :: r => (['-'], r)
             | _ => (([] : List Char), t)) with
      | (sign, t2) =>
        match takeDigits t2 with
        | ([], _) => none
        | (ds, r) => some (e :: (sign ++ ds), r)
    else some ([], e :: t)
  | [] => some ([], [])

/-- JSON number per the grammar the encoding/json scanner enforces:
optional minus, an integer part without a leading zero, optional
fraction, optional exponent.  The literal text is kept. -/
def parseNumber (l : List Char) : Option (Json × List Char) :=
  match (match l with
         | '-' :: t => (['-'], t)
         | _ => (([] : List Char), l)) with
  | (neg, l1) =>
    match l1 with
    | '0' :: t =>
      match parseFrac t with
      | none => none
      | some (f, r1) =>
        match parseExp r1 with
        | none => none
        | some (x, r2) => some (Json.num (String.mk (neg ++ '0' :: (f ++ x))), r2)
    | c :: t =>
      if c.isDigit then
        match takeDigits t with
        | (ds, r0) =>
          match parseFrac r0 with
          | none => none
          | some (f, r1) =>
            match parseExp r1 with
            | none => none
            | some (x, r2) => some (Json.num (String.mk (neg ++ c :: (ds ++ (f ++ x)))), r2)
      else none
    | [] => none

mutual

/-- JSON value parser, fuelled; the fuel passed by parseJson exceeds any
possible nesting depth of the input. -/
def parseValue : Nat → List Char → Option (Json × List Char)
  | 0, _ => none
  | Nat.succ fuel, s =>
    match skipWs s with
    | 'n' :: 'u' :: 'l' :: 'l' :: rest => some (Json.null, rest)
    | 't' :: 'r' :: 'u' :: 'e' :: rest => some (Json.bool true, rest)
    | 'f' :: 'a' :: 'l' :: 's' :: 'e' :: rest => some (Json.bool false, rest)
    | '"' :: rest =>
      match parseStringBody (rest.length + 1) [] rest with
      | none => none
      | some (contents, r) => some (Json.str contents, r)
    | '[' :: rest =>
      match skipWs rest with
      | ']' :: r2 => some (Json.arr [], r2)
      | r2 => parseElems fuel r2 []
    | '{' :: rest =>
      match skipWs rest with
      | '}' :: r2 => some (Json.obj [], r2)
      | r2 => parseMembers fuel r2 []
    | l => parseNumber l

/-- Comma-separated array elements up to the closing bracket. -/
def parseElems : Nat → List Char → List Json → Option (Json × List Char)
  | 0, _, _ => none
  | Nat.succ fuel, s, acc =>
    match parseValue fuel s with
    | none => none
    | some (v, rest) =>
      match skipWs rest with
      | ',' :: r => parseElems fuel r (v :: acc)
      | ']' :: r => some (Json.arr (v :: acc).reverse, r)
      | _ => none

/-- Comma-separated object members up to the closing brace. -/
def parseMembers : Nat → List Char → List (String × Json) → Option (Json × List Char)
  | 0, _, _ => none
  | Nat.succ fuel, s, acc =>
    match skipWs s with
    | '"' :: rest =>
      match parseStringBody (rest.length + 1) [] rest with
      | none => none
      | some (k, r1) =>
        match skipWs r1 with
        | ':' :: r2 =>
          match parseValue fuel r2 with
          | none => none
          | some (v, r3) =>
            match skipWs r3 with
            | ',' :: r4 => parseMembers fuel r4 ((k, v) :: acc)
            | '}' :: r4 => some (Json.obj ((k, v) :: acc).reverse, r4)
            | _ => none
        | _ => none
    | _ => none

end

/-- Top-level JSON parse as json.Unmarshal performs it: one value, then
only whitespace may remain. -/
def parseJson (s : String) : Except String Json :=
  match parseValue (2 * s.data.length + 4) s.data with
  | none => Except.error "invalid JSON"
  | some (v, rest) =>
    match skipWs rest with
    | [] => Except.ok v
    | _ => Except.error "invalid JSON"

/-- Simple case folding of one character, exact for comparison against
ASCII strings: ASCII upper case folds to lower case, and the two
non-ASCII characters whose fold orbit meets ASCII (long s U+017F and the
Kelvin sign U+212A) fold to s and k. -/
def goFoldChar (c : Char) : Char :=
  if 'A' ≤ c ∧ c ≤ 'Z' then Char.ofNat (c.toNat + 32)
  else if c = Char.ofNat 0x17F then 's'
  else if c = Char.ofNat 0x212A then 'k'
  else c

/-- Rune-wise fold equality of two character lists. -/
def goEqualFoldChars (a b : List Char) : Bool :=
  match a, b with
  | [], [] => true
  | x :: xs, y :: ys => goFoldChar x == goFoldChar y && goEqualFoldChars xs ys
  | _, _ => false

/-- Matching of an incoming object key against a struct field tag, as
encoding/json does it: an exact match is preferred but a fold-equal match
(strings.EqualFold) is accepted; with one field per tag the two collapse
to fold equality. -/
def fieldKeyMatches (key tag : String) : Bool :=
  goEqualFoldChars key.data tag.data

/-- Decoding of the elements of a JSON array into Go strings: a string
element is taken verbatim, a null element leaves the Go string at its
zero value (the empty string), anything else is a type error. -/
def decodeStringElems : List Json → Except String (List String)
  | [] => Except.ok []
  | Json.str s :: rest => (decodeStringElems rest).map (fun l => s :: l)
  | Json.null :: rest => (decodeStringElems rest).map (fun l => "" :: l)
  | _ :: _ => Except.error "json: cannot unmarshal value into string"

/-- Decoding of a JSON value into a Go string slice: null sets the slice
to nil (the empty list here), an array decodes element-wise, anything
else is a type error. -/
def decodeStringList (j : Json) : Except String (List String) :=
  match j with
  | Json.null => Except.ok []
  | Json.arr xs => decodeStringElems xs
  | _ => Except.error "json: cannot unmarshal value into a string slice"

/-- One object member applied to the Config being built: a key matching
the base_dirs tag decodes into BaseDirs, one matching ignore_dirs into
IgnoreDirs, an unknown key is ignored. -/
def applyKey (c : Config) (k : String) (v : Json) : Except String Config :=
  if fieldKeyMatches k "base_dirs" then
    match decodeStringList v with
    | Except.error e => Except.error e
    | Except.ok l => Except.ok (Config.mk l c.IgnoreDirs)
  else if fieldKeyMatches k "ignore_dirs" then
    match decodeStringList v with
    | Except.error e => Except.error e
    | Except.ok l => Except.ok (Config.mk c.BaseDirs l)
  else Except.ok c

/-- Object members applied in order to the zero Config; a later duplicate
key overwrites an earlier one, as the sequential decoder does. -/
def applyKeys (c : Config) : List (String × Json) → Except String Config
  | [] => Except.ok c
  | (k, v) :: rest =>
    match applyKey c k v with
    | Except.error e => Except.error e
    | Except.ok c2 => applyKeys c2 rest

/-- Embedding of json.Unmarshal into the Config struct: the text must
parse as one JSON value; an object fills the zero Config member by
member, null leaves the zero Config, any other value is a type error. -/
def unmarshalConfig (s : String) : Except String Config :=
  match parseJson s with
  | Except.error e => Except.error e
  | Except.ok (Json.obj kvs) => applyKeys (Config.mk [] []) kvs
  | Except.ok Json.null => Except.ok (Config.mk [] [])
  | Except.ok _ => Except.error "json: cannot unmarshal value into Config"

/-- Hexadecimal digit character, lower case. -/
def hexDigitChar (n : Nat) : Char :=
  if n < 10 then Char.ofNat ('0'.toNat + n) else Char.ofNat ('a'.toNat + n - 10)

/-- Escaping of one character inside a marshalled JSON string, following
the encoding/json encoder: quote, backslash, the common control escapes,
other control characters as u-escapes, the HTML-sensitive characters and
the two line separators as u-escapes. -/
def escapeJsonChar (c : Char) : List Char :=
  if c = '"' then ['\\', '"']
  else if c = '\\' then ['\\', '\\']
  else if c = '\n' then ['\\', 'n']
  else if c = '\r' then ['\\', 'r']
  else if c = '\t' then ['\\', 't']
  else if c = '<' then ['\\', 'u', '0', '0', '3', 'c']
  else if c = '>' then ['\\', 'u', '0', '0', '3', 'e']
  else if c = '&' then ['\\', 'u', '0', '0', '2', '6']
  else if c.toNat < 0x20 then
    ['\\', 'u', '0', '0', hexDigitChar (c.toNat / 16), hexDigitChar (c.toNat % 16)]
  else if c = Char.ofNat 0x2028 then ['\\', 'u', '2', '0', '2', '8']
  else if c = Char.ofNat 0x2029 then ['\\', 'u', '2', '0', '2', '9']
  else [c]

/-- Quoted JSON string literal for a Go string. -/
def quoteJsonString (s : String) : String :=
  String.mk ('"' :: (s.data.foldr (fun c acc => escapeJsonChar c ++ acc) ['"']))

/-- Marshalled JSON array for a Go string slice as writeConfig passes it:
writeConfig always passes explicit non-nil slices, so an empty list is
rendered as an empty array. -/
def marshalStringList (l : List String) : String :=
  "[" ++ String.intercalate "," (l.map quoteJsonString) ++ "]"

/-- Embedding of json.Marshal of the Config struct: the two fields in
declaration order under their tags. -/
def marshalConfig (c : Config) : String :=
  "\x7b\"base_dirs\":" ++ marshalStringList c.BaseDirs ++
    ",\"ignore_dirs\":" ++ marshalStringList c.IgnoreDirs ++ "\x7d"

/-- Outcome of os.ReadFile on the config path: the contents, the
not-exist error that errors.Is(err, os.ErrNotExist) detects, or any other
read error. -/
inductive ReadFileResult where
  | content (s : String)
  | notExist
  | readError (e : String)
deriving Repr, DecidableEq

/-- Filesystem state the config loader sees: the read outcome at the
config path and the outcome os.WriteFile would have there. -/
structure ConfigFS where
  file : ReadFileResult
  writeErr : Option String
deriving Repr, DecidableEq

/-- Embedding of readConfig together with writeConfig: a missing file is
replaced by the marshalled default Config (both lists empty), which is
also returned; a failing write surfaces its error; any other read error
surfaces; otherwise the contents are unmarshalled.  The second component
of a successful result is the file content written, when any. -/
def readConfig (fs : ConfigFS) : Except String (Config × Option String) :=
  match fs.file with
  | ReadFileResult.notExist =>
    match fs.writeErr with
    | none => Except.ok (Config.mk [] [], some (marshalConfig (Config.mk [] [])))
    | some e => Except.error e
  | ReadFileResult.readError e => Except.error e
  | ReadFileResult.content s =>
    match unmarshalConfig s with
    | Except.error e => Except.error e
    | Except.ok c => Except.ok (c, none)

/-- Directory entry as os.ReadDir yields it. -/
structure DirEntry where
  name : String
  isDir : Bool
deriving Repr, DecidableEq

/-- tmux commands the program can issue; the trace of a run records them
in order. -/
inductive TmuxCmd where
  | hasSession (id : String)
  | newSession (id targetDir : String)
  | attach (id : String)
  | switchClient (id : String)
deriving Repr, DecidableEq

/-- External world of one run: the outcome of os.ReadDir per directory,
the stdout of fzf per stdin contents (or its failure to run or non-zero
exit), whether tmux has-session succeeds per id, the outcome of tmux
new-session, the presence of the TMUX environment marker, the outcomes of
tmux switch-client and tmux attach, and the home directory lookup. -/
structure World where
  readDir : String → Except String (List DirEntry)
  fzf : String → Except String String
  hasSession : String → Bool
  newSession : String → String → Except String Unit
  tmuxEnv : Bool
  switchClient : String → Except String Unit
  attach : String → Except String Unit
  homeDir : Except String String

/-- Embedding of path.Base: trailing slashes are stripped and the part
after the last remaining slash is kept; the empty path gives a dot and an
all-slash path a slash. -/
def goPathBase (p : String) : String :=
  if p = "" then "."
  else
    let cs := (p.data.reverse.dropWhile (fun c => c = '/')).reverse
    if cs = [] then "/"
    else String.mk (cs.reverse.takeWhile (fun c => c ≠ '/')).reverse

/-- Stack pass of path.Clean over the slash-separated components: empty
and dot components vanish; dot-dot pops a non-dot-dot top, is dropped at
the root and is kept when the path is relative. -/
def cleanStack (rooted : Bool) (acc : List String) : List String → List String
  | [] => acc.reverse
  | c :: rest =>
    if c = "" ∨ c = "." then cleanStack rooted acc rest
    else if c = ".." then
      match acc with
      | [] => cleanStack rooted (if rooted then [] else [".."]) rest
      | top :: t =>
        if top = ".." then cleanStack rooted (".." :: acc) rest
        else cleanStack rooted t rest
    else cleanStack rooted (c :: acc) rest

/-- Embedding of path.Clean through its component semantics. -/
def goPathClean (p : String) : String :=
  if p = "" then "."
  else
    let comps := cleanStack (p.data.head? == some '/') [] (p.splitOn "/")
    let out := String.intercalate "/" comps
    if p.data.head? == some '/' then
      (if out = "" then "/" else "/" ++ out)
    else
      (if out = "" then "." else out)

/-- Embedding of path.Join on two elements: the elements are joined by a
slash from the first non-empty one on, then cleaned. -/
def goPathJoin (a b : String) : String :=
  if a ≠ "" then goPathClean (a ++ "/" ++ b)
  else if b ≠ "" then goPathClean b
  else ""

/-- White space per unicode.IsSpace, which strings.TrimSpace trims. -/
def goIsSpace (c : Char) : Bool :=
  c == '\t' || c == '\n' || c == Char.ofNat 0x0B || c == Char.ofNat 0x0C ||
  c == '\r' || c == ' ' || c == Char.ofNat 0x85 || c == Char.ofNat 0xA0 ||
  c == Char.ofNat 0x1680 ||
  (decide (Char.ofNat 0x2000 ≤ c) && decide (c ≤ Char.ofNat 0x200A)) ||
  c == Char.ofNat 0x2028 || c == Char.ofNat 0x2029 || c == Char.ofNat 0x202F ||
  c == Char.ofNat 0x205F || c == Char.ofNat 0x3000

/-- Embedding of strings.TrimSpace: leading and trailing white space
removed. -/
def goTrimSpace (s : String) : String :=
  String.mk (((s.data.dropWhile goIsSpace).reverse.dropWhile goIsSpace).reverse)

/-- Loop of listDirectories over the base directories: the immediate
child directories of each base directory joined onto it, aborting on the
first read error with no partial result. -/
def listDirsFrom (w : World) : List String → Except String (List String)
  | [] => Except.ok []
  | baseDir :: rest =>
    match w.readDir baseDir with
    | Except.error e => Except.error e
    | Except.ok entries =>
      match listDirsFrom w rest with
      | Except.error e => Except.error e
      | Except.ok more =>
        Except.ok (((entries.filter (fun en => en.isDir)).map
          (fun en => goPathJoin baseDir en.name)) ++ more)

/-- Embedding of listDirectories: enumerate the immediate child
directories of every base directory, abort on the first read failure,
then drop the ignored suffixes. -/
def listDirectories (w : World) (config : Config) : Except String (List String) :=
  match listDirsFrom w config.BaseDirs with
  | Except.error e => Except.error e
  | Except.ok paths => Except.ok (removeIgnoredDirs paths config)

/-- Embedding of getTargetDir: the candidate paths joined by newlines are
fed to fzf; a failing selector invocation is swallowed and treated as no
selection (the empty string), a successful selection is trimmed. -/
def getTargetDir (w : World) (config : Config) : Except String String :=
  match listDirectories w config with
  | Except.error e => Except.error e
  | Except.ok paths =>
    match w.fzf (String.intercalate "\n" paths) with
    | Except.error _ => Except.ok ""
    | Except.ok out => Except.ok (goTrimSpace out)

/-- Embedding of sessionExists: tmux has-session is issued and a failing
query counts as no such session. -/
def sessionExists (w : World) (id : String) : Bool × List TmuxCmd :=
  (w.hasSession id, [TmuxCmd.hasSession id])

/-- Embedding of createSession: tmux new-session, detached, in the target
directory. -/
def createSession (w : World) (id targetDir : String) :
    Except String Unit × List TmuxCmd :=
  (w.newSession id targetDir, [TmuxCmd.newSession id targetDir])

/-- Embedding of switchToSession: with the TMUX marker present in the
environment the switch-client path (switchSession) runs, without it the
attach path (attachToSession). -/
def switchToSession (w : World) (id : String) :
    Except String Unit × List TmuxCmd :=
  if w.tmuxEnv then (w.switchClient id, [TmuxCmd.switchClient id])
  else (w.attach id, [TmuxCmd.attach id])

/-- Embedding of handleSessionSwitch, together with the trace of tmux
commands the run issues. -/
def handleSessionSwitch (w : World) (config : Config) :
    Except String Unit × List TmuxCmd :=
  match getTargetDir w config with
  | Except.error e => (Except.error e, [])
  | Except.ok targetDir =>
    if targetDir = "" then (Except.ok (), [])
    else
      let id := cleanID (goPathBase targetDir)
      match sessionExists w id with
      | (found, t1) =>
        if found then
          match switchToSession w id with
          | (r, t2) => (r, t1 ++ t2)
        else
          match createSession w id targetDir with
          | (Except.error e, t2) => (Except.error e, t1 ++ t2)
          | (Except.ok _, t2) =>
            match switchToSession w id with
            | (r, t3) => (r, t1 ++ t2 ++ t3)

/-- Embedding of handleSwitchToZero: the fixed zero session bound to the
home directory. -/
def handleSwitchToZero (w : World) : Except String Unit × List TmuxCmd :=
  match w.homeDir with
  | Except.error e => (Except.error e, [])
  | Except.ok targetDir =>
    match sessionExists w "0" with
    | (found, t1) =>
      if found then
        match switchToSession w "0" with
        | (r, t2) => (r, t1 ++ t2)
      else
        match createSession w "0" targetDir with
        | (Except.error e, t2) => (Except.error e, t1 ++ t2)
        | (Except.ok _, t2) =>
          match switchToSession w "0" with
          | (r, t3) => (r, t1 ++ t2 ++ t3)

/-- Embedding of run: the config is loaded, then the literal argument 0
selects the zero-session flow and any other argument the switcher flow. -/
def runTsm (w : World) (fs : ConfigFS) (arg : String) :
    Except String Unit × List TmuxCmd :=
  match readConfig fs with
  | Except.error e => (Except.error e, [])
  | Except.ok (config, _) =>
    if arg = "0" then handleSwitchToZero w
    else handleSessionSwitch w config

/-- Exit code of main: a run error is printed and the process exits with
1, otherwise it exits with 0. -/
def exitCode (r : Except String Unit) : Nat :=
  match r with
  | Except.ok _ => 0
  | Except.error _ => 1

/-- Sample world for concrete runs: every external call succeeds and the
TMUX marker is present. -/
def sampleWorld : World :=
  World.mk (fun _ => Except.ok []) (fun _ => Except.ok "") (fun _ => true)
    (fun _ _ => Except.ok ()) true (fun _ => Except.ok ()) (fun _ => Except.ok ())
    (Except.ok "/home")

/-- C3: when the config file does not exist the loader writes the default
config, whose text has both base_dirs and ignore_dirs as empty arrays and
denotes the empty config, and returns that same empty config; when the
file exists but is malformed JSON the loader fails with the parse
error. -/
theorem readConfig_default_and_parse_error (fs : ConfigFS) :
    (fs.file = ReadFileResult.notExist → fs.writeErr = none →
      readConfig fs =
        Except.ok (Config.mk [] [], some (marshalConfig (Config.mk [] []))) ∧
      unmarshalConfig (marshalConfig (Config.mk [] [])) = Except.ok (Config.mk [] [])) ∧
    (∀ s e, fs.file = ReadFileResult.content s → parseJson s = Except.error e →
      readConfig fs = Except.error e) := by
  constructor
  · intro h1 h2
    exact ⟨by simp [readConfig, h1, h2], rfl⟩
  · intro s e h1 h2
    simp [readConfig, h1, unmarshalConfig, h2]

theorem readConfig_default_and_parse_error_witness :
    (readConfig (ConfigFS.mk ReadFileResult.notExist none) =
      Except.ok (Config.mk [] [], some (marshalConfig (Config.mk [] []))) ∧
     unmarshalConfig (marshalConfig (Config.mk [] [])) = Except.ok (Config.mk [] [])) ∧
    readConfig (ConfigFS.mk (ReadFileResult.content "\x7b") none) =
      Except.error "invalid JSON" :=
  ⟨(readConfig_default_and_parse_error (ConfigFS.mk ReadFileResult.notExist none)).1 rfl rfl,
   (readConfig_default_and_parse_error
      (ConfigFS.mk (ReadFileResult.content "\x7b") none)).2 "\x7b" "invalid JSON" rfl rfl⟩

theorem applyKeys_no_base_key (kvs : List (String × Json)) (c c2 : Config)
    (h : applyKeys c kvs = Except.ok c2)
    (hk : ∀ kv ∈ kvs, fieldKeyMatches kv.1 "base_dirs" = false) :
    c2.BaseDirs = c.BaseDirs := by
  induction kvs generalizing c with
  | nil =>
    simp [applyKeys] at h
    rw [← h]
  | cons kv rest ih =>
    obtain ⟨k, v⟩ := kv
    have hk1 : fieldKeyMatches k "base_dirs" = false := hk (k, v) (List.mem_cons_self _ _)
    have hkr : ∀ x ∈ rest, fieldKeyMatches x.1 "base_dirs" = false :=
      fun x hx => hk x (List.mem_cons_of_mem _ hx)
    by_cases h2 : fieldKeyMatches k "ignore_dirs"
    · cases hdec : decodeStringList v with
      | error e => simp [applyKeys, applyKey, hk1, h2, hdec] at h
      | ok l =>
        have hrest : applyKeys (Config.mk c.BaseDirs l) rest = Except.ok c2 := by
          simpa [applyKeys, applyKey, hk1, h2, hdec] using h
        simpa using ih (Config.mk c.BaseDirs l) hrest hkr
    · have hrest : applyKeys c rest = Except.ok c2 := by
        simpa [applyKeys, applyKey, hk1, h2] using h
      exact ih c hrest hkr

theorem applyKeys_no_ignore_key (kvs : List (String × Json)) (c c2 : Config)
    (h : applyKeys c kvs = Except.ok c2)
    (hk : ∀ kv ∈ kvs, fieldKeyMatches kv.1 "ignore_dirs" = false) :
    c2.IgnoreDirs = c.IgnoreDirs := by
  induction kvs generalizing c with
  | nil =>
    simp [applyKeys] at h
    rw [← h]
  | cons kv rest ih =>
    obtain ⟨k, v⟩ := kv
    have hk1 : fieldKeyMatches k "ignore_dirs" = false := hk (k, v) (List.mem_cons_self _ _)
    have hkr : ∀ x ∈ rest, fieldKeyMatches x.1 "ignore_dirs" = false :=
      fun x hx => hk x (List.mem_cons_of_mem _ hx)
    by_cases h2 : fieldKeyMatches k "base_dirs"
    · cases hdec : decodeStringList v with
      | error e => simp [applyKeys, applyKey, h2, hdec] at h
      | ok l =>
        have hrest : applyKeys (Config.mk l c.IgnoreDirs) rest = Except.ok c2 := by
          simpa [applyKeys, applyKey, h2, hdec] using h
        simpa using ih (Config.mk l c.IgnoreDirs) hrest hkr
    · have hrest : applyKeys c rest = Except.ok c2 := by
        simpa [applyKeys, applyKey, hk1, h2] using h
      exact ih c hrest hkr

theorem applyKeys_no_matching_key (kvs : List (String × Json)) (c : Config)
    (hk : ∀ kv ∈ kvs, fieldKeyMatches kv.1 "base_dirs" = false ∧
      fieldKeyMatches kv.1 "ignore_dirs" = false) :
    applyKeys c kvs = Except.ok c := by
  induction kvs with
  | nil => rfl
  | cons kv rest ih =>
    obtain ⟨k, v⟩ := kv
    obtain ⟨h1, h2⟩ := hk (k, v) (List.mem_cons_self _ _)
    simp [applyKeys, applyKey, h1, h2, ih (fun x hx => hk x (List.mem_cons_of_mem _ hx))]

/-- C10 counterexample: this config file content is valid JSON and omits
the base_dirs key, yet the loader fails with a type error on the present
ignore_dirs value instead of succeeding, so validity plus an omitted key
alone does not make the load succeed. -/
theorem readConfig_missing_key_counterexample :
    parseJson "\x7b\"ignore_dirs\":0\x7d" =
      Except.ok (Json.obj [("ignore_dirs", Json.num "0")]) ∧
    ([("ignore_dirs", Json.num "0")].all
      (fun kv => !fieldKeyMatches kv.1 "base_dirs")) = true ∧
    readConfig (ConfigFS.mk (ReadFileResult.content "\x7b\"ignore_dirs\":0\x7d") none) =
      Except.error "json: cannot unmarshal value into a string slice" :=
  ⟨rfl, rfl, rfl⟩

/-- C10 (amended): when the config file exists and parses as a JSON
object, then, provided the load succeeds (the fields that are present
decode), an absent base_dirs key leaves BaseDirs empty so no candidate
directory is enumerated, and an absent ignore_dirs key leaves IgnoreDirs
empty so no path is filtered; and when the object has no base_dirs and no
ignore_dirs key at all the loader always succeeds, with the empty
config. -/
theorem readConfig_missing_key_defaults (fs : ConfigFS) (s : String)
    (kvs : List (String × Json))
    (hfile : fs.file = ReadFileResult.content s)
    (hparse : parseJson s = Except.ok (Json.obj kvs)) :
    ((∀ kv ∈ kvs, fieldKeyMatches kv.1 "base_dirs" = false ∧
        fieldKeyMatches kv.1 "ignore_dirs" = false) →
      readConfig fs = Except.ok (Config.mk [] [], none)) ∧
    (∀ c written, readConfig fs = Except.ok (c, written) →
      ((∀ kv ∈ kvs, fieldKeyMatches kv.1 "base_dirs" = false) →
        c.BaseDirs = [] ∧ ∀ w, listDirectories w c = Except.ok []) ∧
      ((∀ kv ∈ kvs, fieldKeyMatches kv.1 "ignore_dirs" = false) →
        c.IgnoreDirs = [] ∧ ∀ ps, removeIgnoredDirs ps c = ps)) := by
  constructor
  · intro hk
    simp [readConfig, hfile, unmarshalConfig, hparse, applyKeys_no_matching_key kvs _ hk]
  · intro c written h
    simp only [readConfig, hfile] at h
    cases hu : unmarshalConfig s with
    | error e => rw [hu] at h; cases h
    | ok c0 =>
      rw [hu] at h
      have hc : c0 = c := by
        cases h
        rfl
      subst hc
      have happ : applyKeys (Config.mk [] []) kvs = Except.ok c0 := by
        simpa [unmarshalConfig, hparse] using hu
      constructor
      · intro hk
        have hbase : c0.BaseDirs = [] := applyKeys_no_base_key kvs _ c0 happ hk
        refine ⟨hbase, fun w => ?_⟩
        simp [listDirectories, hbase, listDirsFrom, removeIgnoredDirs]
      · intro hk
        have hign : c0.IgnoreDirs = [] := applyKeys_no_ignore_key kvs _ c0 happ hk
        refine ⟨hign, fun ps => ?_⟩
        unfold removeIgnoredDirs
        rw [hign]
        exact List.filter_eq_self.mpr (fun a _ => rfl)

theorem readConfig_missing_key_defaults_witness :
    readConfig (ConfigFS.mk (ReadFileResult.content "\x7b\"other\":1\x7d") none) =
      Except.ok (Config.mk [] [], none) ∧
    (∀ w, listDirectories w (Config.mk [] []) = Except.ok []) ∧
    removeIgnoredDirs ["p"] (Config.mk [] []) = ["p"] := by
  have h := readConfig_missing_key_defaults
    (ConfigFS.mk (ReadFileResult.content "\x7b\"other\":1\x7d") none)
    "\x7b\"other\":1\x7d" [("other", Json.num "1")] rfl rfl
  have h1 := h.1 (by intro kv hkv; simp only [List.mem_singleton] at hkv; subst hkv; exact ⟨rfl, rfl⟩)
  have h2 := h.2 (Config.mk [] []) none h1
  exact ⟨h1,
    (h2.1 (by intro kv hkv; simp only [List.mem_singleton] at hkv; subst hkv; rfl)).2,
    (h2.2 (by intro kv hkv; simp only [List.mem_singleton] at hkv; subst hkv; rfl)).2 ["p"]⟩

/-- C4: when the selector exits non-zero (cancellation or invocation
failure) or yields output that trims to the empty string, the run issues
no tmux command at all (no existence check, no create, no attach or
switch) and the program terminates successfully with exit code 0. -/
theorem empty_selection_clean_exit (w : World) (fs : ConfigFS) (cfg : Config)
    (written : Option String) (arg : String) (paths : List String)
    (hcfg : readConfig fs = Except.ok (cfg, written))
    (harg : arg ≠ "0")
    (hlist : listDirectories w cfg = Except.ok paths)
    (hsel : (∃ e, w.fzf (String.intercalate "\n" paths) = Except.error e) ∨
      (∃ out, w.fzf (String.intercalate "\n" paths) = Except.ok out ∧
        goTrimSpace out = "")) :
    runTsm w fs arg = (Except.ok (), []) ∧ exitCode (runTsm w fs arg).1 = 0 := by
  have htgt : getTargetDir w cfg = Except.ok "" := by
    rcases hsel with ⟨e, he⟩ | ⟨out, hout, htrim⟩
    · simp [getTargetDir, hlist, he]
    · simp [getTargetDir, hlist, hout, htrim]
  have hrun : runTsm w fs arg = (Except.ok (), []) := by
    simp [runTsm, hcfg, harg, handleSessionSwitch, htgt]
  exact ⟨hrun, by rw [hrun]; rfl⟩

theorem empty_selection_clean_exit_witness :
    runTsm
      (World.mk (fun _ => Except.ok []) (fun _ => Except.error "cancelled") (fun _ => true)
        (fun _ _ => Except.ok ()) true (fun _ => Except.ok ()) (fun _ => Except.ok ())
        (Except.ok "/home"))
      (ConfigFS.mk (ReadFileResult.content "\x7b\x7d") none) "" = (Except.ok (), []) ∧
    exitCode (runTsm
      (World.mk (fun _ => Except.ok []) (fun _ => Except.error "cancelled") (fun _ => true)
        (fun _ _ => Except.ok ()) true (fun _ => Except.ok ()) (fun _ => Except.ok ())
        (Except.ok "/home"))
      (ConfigFS.mk (ReadFileResult.content "\x7b\x7d") none) "").1 = 0 :=
  empty_selection_clean_exit
    (World.mk (fun _ => Except.ok []) (fun _ => Except.error "cancelled") (fun _ => true)
      (fun _ _ => Except.ok ()) true (fun _ => Except.ok ()) (fun _ => Except.ok ())
      (Except.ok "/home"))
    (ConfigFS.mk (ReadFileResult.content "\x7b\x7d") none) (Config.mk [] []) none "" []
    rfl (by decide) rfl (Or.inl ⟨"cancelled", rfl⟩)

/-- C5: in a run where the existence check reports that the session with
the computed identifier already exists, new-session is never issued for
any arguments; the trace is exactly the existence check followed by the
attach-or-switch command for that identifier. -/
theorem existing_session_no_create (w : World) (cfg : Config) (t : String)
    (htgt : getTargetDir w cfg = Except.ok t) (hne : t ≠ "")
    (hex : w.hasSession (cleanID (goPathBase t)) = true) :
    (handleSessionSwitch w cfg).2 =
      [TmuxCmd.hasSession (cleanID (goPathBase t)),
        if w.tmuxEnv then TmuxCmd.switchClient (cleanID (goPathBase t))
        else TmuxCmd.attach (cleanID (goPathBase t))] ∧
    ∀ i d, TmuxCmd.newSession i d ∉ (handleSessionSwitch w cfg).2 := by
  have hmain : (handleSessionSwitch w cfg).2 =
      [TmuxCmd.hasSession (cleanID (goPathBase t)),
        if w.tmuxEnv then TmuxCmd.switchClient (cleanID (goPathBase t))
        else TmuxCmd.attach (cleanID (goPathBase t))] := by
    by_cases henv : w.tmuxEnv <;>
      simp [handleSessionSwitch, htgt, hne, sessionExists, hex, switchToSession, henv]
  refine ⟨hmain, fun i d => ?_⟩
  rw [hmain]
  by_cases henv : w.tmuxEnv <;> simp [henv]

theorem existing_session_no_create_witness :
    (handleSessionSwitch
      (World.mk (fun _ => Except.ok [DirEntry.mk "proj" true])
        (fun _ => Except.ok "/base/proj\n") (fun _ => true) (fun _ _ => Except.ok ()) true
        (fun _ => Except.ok ()) (fun _ => Except.ok ()) (Except.ok "/home"))
      (Config.mk ["/base"] [])).2 =
      [TmuxCmd.hasSession (cleanID (goPathBase "/base/proj")),
        if (true : Bool) then TmuxCmd.switchClient (cleanID (goPathBase "/base/proj"))
        else TmuxCmd.attach (cleanID (goPathBase "/base/proj"))] ∧
    ∀ i d, TmuxCmd.newSession i d ∉
      (handleSessionSwitch
        (World.mk (fun _ => Except.ok [DirEntry.mk "proj" true])
          (fun _ => Except.ok "/base/proj\n") (fun _ => true) (fun _ _ => Except.ok ()) true
          (fun _ => Except.ok ()) (fun _ => Except.ok ()) (Except.ok "/home"))
        (Config.mk ["/base"] [])).2 :=
  existing_session_no_create
    (World.mk (fun _ => Except.ok [DirEntry.mk "proj" true])
      (fun _ => Except.ok "/base/proj\n") (fun _ => true) (fun _ _ => Except.ok ()) true
      (fun _ => Except.ok ()) (fun _ => Except.ok ()) (Except.ok "/home"))
    (Config.mk ["/base"] []) "/base/proj" rfl (by decide) rfl

/-- C6: switchToSession issues switch-client exactly when the TMUX
environment marker is present and attach exactly when it is absent, and
in any run of it exactly one of the two commands is issued. -/
theorem switchToSession_env (w : World) (id : String) :
    (w.tmuxEnv = true → (switchToSession w id).2 = [TmuxCmd.switchClient id]) ∧
    (w.tmuxEnv = false → (switchToSession w id).2 = [TmuxCmd.attach id]) ∧
    (TmuxCmd.switchClient id ∈ (switchToSession w id).2 ↔
      TmuxCmd.attach id ∉ (switchToSession w id).2) := by
  by_cases h : w.tmuxEnv <;> simp [switchToSession, h]

theorem switchToSession_env_witness :
    (switchToSession sampleWorld "dev").2 = [TmuxCmd.switchClient "dev"] ∧
    (switchToSession (World.mk (fun _ => Except.ok []) (fun _ => Except.ok "")
      (fun _ => true) (fun _ _ => Except.ok ()) false (fun _ => Except.ok ())
      (fun _ => Except.ok ()) (Except.ok "/home")) "dev").2 = [TmuxCmd.attach "dev"] :=
  ⟨(switchToSession_env sampleWorld "dev").1 rfl,
   (switchToSession_env (World.mk (fun _ => Except.ok []) (fun _ => Except.ok "")
      (fun _ => true) (fun _ _ => Except.ok ()) false (fun _ => Except.ok ())
      (fun _ => Except.ok ()) (Except.ok "/home")) "dev").2.1 rfl⟩

theorem listDirsFrom_first_error (w : World) (pre : List String) (b : String)
    (post : List String) (e : String)
    (hb : w.readDir b = Except.error e) :
    (∀ a ∈ pre, ∃ entries, w.readDir a = Except.ok entries) →
    listDirsFrom w (pre ++ b :: post) = Except.error e := by
  induction pre with
  | nil => intro _; simp [listDirsFrom, hb]
  | cons a rest ih =>
    intro hpre
    obtain ⟨entries, ha⟩ := hpre a (List.mem_cons_self a rest)
    simp [listDirsFrom, ha, ih (fun x hx => hpre x (List.mem_cons_of_mem a hx))]

/-- C7: when reading some base directory fails, the whole listing aborts
at the first such failure and returns that error; the error branch
carries no candidate list, so no partial list of previously enumerated
paths is returned. -/
theorem listDirectories_first_error (w : World) (config : Config)
    (pre : List String) (b : String) (post : List String) (e : String)
    (hsplit : config.BaseDirs = pre ++ b :: post)
    (hpre : ∀ a ∈ pre, ∃ entries, w.readDir a = Except.ok entries)
    (hb : w.readDir b = Except.error e) :
    listDirectories w config = Except.error e := by
  simp [listDirectories, hsplit, listDirsFrom_first_error w pre b post e hb hpre]

theorem listDirectories_first_error_witness :
    listDirectories
      (World.mk
        (fun d => if d = "/ok" then Except.ok [] else Except.error "permission denied")
        (fun _ => Except.ok "") (fun _ => false) (fun _ _ => Except.ok ()) false
        (fun _ => Except.ok ()) (fun _ => Except.ok ()) (Except.ok "/home"))
      (Config.mk ["/ok", "/gone"] []) = Except.error "permission denied" :=
  listDirectories_first_error
    (World.mk
      (fun d => if d = "/ok" then Except.ok [] else Except.error "permission denied")
      (fun _ => Except.ok "") (fun _ => false) (fun _ _ => Except.ok ()) false
      (fun _ => Except.ok ()) (fun _ => Except.ok ()) (Except.ok "/home"))
    (Config.mk ["/ok", "/gone"] []) ["/ok"] "/gone" [] "permission denied" rfl
    (by intro a ha; simp only [List.mem_singleton] at ha; subst ha; exact ⟨[], rfl⟩)
    rfl
